import Mathlib

/-!
# go-https: a verification development of `server.go`

The file embeds `server.go` (a dual-listener HTTP/HTTPS server with three
diagnostic handlers) together with the parts of the Go standard library that
decide its behaviour:

* `fmt` — the format-string interpreter `doPrintf` (Go 1.20, `fmt/print.go`),
* `net/http` — `ResponseWriter`, `Header.Get`, `ServeMux` (Go 1.20, `server.go`),
* `path.Clean`, `net.SplitHostPort`, `errors.Is`, `sync.WaitGroup`.

Go strings are modelled by Lean `String`s (valid UTF-8 texts); the formatting
engine works on their character lists.
-/

namespace GoHttps

/-! ## `fmt`: operands and the formatter state -/

/-- An operand passed through `...any`.  The program formats only strings
(`RemoteAddr`, header names, `Host`) and string slices (header values). -/
inductive Value where
  | str (s : String)
  | strs (v : List String)
deriving DecidableEq, Repr

/-- The `fmt.fmt` record: the flags of the directive being parsed, and its width
and precision. -/
structure Fmt where
  widPresent : Bool
  precPresent : Bool
  minus : Bool
  plus : Bool
  sharp : Bool
  space : Bool
  zero : Bool
  plusV : Bool
  sharpV : Bool
  wid : Nat
  prec : Nat
deriving DecidableEq, Repr

/-- The printer state `pp`: output buffer, `reordered`, `goodArgNum`, and `fmt`. -/
structure PP where
  buf : List Char
  reordered : Bool
  goodArgNum : Bool
  fmt : Fmt
deriving DecidableEq, Repr

/-- A fresh printer (`newPrinter`). -/
def newPrinter : PP :=
  { buf := [], reordered := false, goodArgNum := false,
    fmt := { widPresent := false, precPresent := false, minus := false, plus := false,
             sharp := false, space := false, zero := false, plusV := false,
             sharpV := false, wid := 0, prec := 0 } }

/-- `fmt.clearflags`: resets every flag, keeps `wid` and `prec`. -/
def Fmt.clearflags (f : Fmt) : Fmt :=
  { f with widPresent := false, precPresent := false, minus := false, plus := false,
           sharp := false, space := false, zero := false, plusV := false, sharpV := false }

/-- No flag, width or precision is in force. -/
def Fmt.isPlain (f : Fmt) : Bool :=
  !f.widPresent && !f.precPresent && !f.minus && !f.plus && !f.sharp && !f.space &&
    !f.zero && !f.plusV && !f.sharpV

def PP.writeString (p : PP) (s : List Char) : PP := { p with buf := p.buf ++ s }

def percentBangString : List Char := "%!".data
def missingString : List Char := "(MISSING)".data
def badIndexString : List Char := "(BADINDEX)".data
def noVerbString : List Char := "%!(NOVERB)".data
def badWidthString : List Char := "%!(BADWIDTH)".data
def badPrecString : List Char := "%!(BADPREC)".data
def extraString : List Char := "%!(EXTRA ".data
def commaSpaceString : List Char := ", ".data

/-- `tooLarge`: the bound on widths, precisions and argument numbers. -/
def tooLarge (x : Nat) : Bool := decide (x > 1000000)

/-- The loop of `parsenum` over the segment `s[start:end]`: returns the number,
whether one was read, and the unread rest of the segment (on overflow `newi = end`,
so nothing is left). -/
def parsenumLoop : List Char → Nat → Bool → Nat × Bool × List Char
  | [], num, isnum => (num, isnum, [])
  | c :: cs, num, isnum =>
    if '0' ≤ c ∧ c ≤ '9' then
      if tooLarge num then (0, false, [])
      else parsenumLoop cs (num * 10 + (c.toNat - '0'.toNat)) true
    else (num, isnum, c :: cs)

/-- `parsenum(s, start, end)` on the segment `s[start:end]`. -/
def parsenum (seg : List Char) : Nat × Bool × List Char :=
  parsenumLoop seg 0 false

/-- Byte length of a text, Go's `len`. -/
def byteLen (s : List Char) : Nat := (s.map Char.utf8Size).sum

/-- `parseArgNumber(format)`, called on a text that starts with `[`: the
zero-based index, the text after the bracketed number, and whether it parsed. -/
def parseArgNumber (format : List Char) : Int × List Char × Bool :=
  if byteLen format < 3 then (0, format.drop 1, false)
  else
    let body := format.drop 1
    let inner := body.takeWhile (fun c => c != ']')
    match body.dropWhile (fun c => c != ']') with
    | [] => (0, format.drop 1, false)
    | _ :: after =>
      match parsenum inner with
      | (width, ok, rest) =>
        if !ok || !rest.isEmpty then (0, after, false)
        else ((width : Int) - 1, after, true)

/-- `pp.argNumber`: an optional explicit argument index `[n]`. Returns the
printer, the new argument number, the unread format and `found`. -/
def argNumber (p : PP) (argNum : Nat) (format : List Char) (numArgs : Nat) :
    PP × Nat × List Char × Bool :=
  match format with
  | '[' :: _ =>
    let p := { p with reordered := true }
    match parseArgNumber format with
    | (index, rest, ok) =>
      if ok && decide (0 ≤ index) && decide (index < (numArgs : Int)) then
        (p, index.toNat, rest, true)
      else ({ p with goodArgNum := false }, argNum, rest, ok)
  | _ => (p, argNum, format, false)

/-- `intFromArg`: no operand of this program is an integer, so the result is
never an integer; an operand is consumed when one is left. -/
def intFromArg (a : List Value) (argNum : Nat) : Nat × Bool × Nat :=
  if argNum < a.length then (0, false, argNum + 1) else (0, false, argNum)

/-- The flag loop `simpleFormat`: consumes `#0+- ` and stops at the first other
character. -/
def parseFlags : List Char → Fmt → Fmt × List Char
  | [], f => (f, [])
  | c :: cs, f =>
    if c = '#' then parseFlags cs { f with sharp := true }
    else if c = '0' then parseFlags cs { f with zero := !f.minus }
    else if c = '+' then parseFlags cs { f with plus := true }
    else if c = '-' then parseFlags cs { f with minus := true, zero := false }
    else if c = ' ' then parseFlags cs { f with space := true }
    else (f, c :: cs)

/-- Rendering of a string slice under `%v`: `[a b c]`. -/
def printSlice (v : List String) : List Char :=
  '[' :: (" ".intercalate v).data ++ [']']

/-- `pp.printArg` for the plain `%v` directive (no flag, width or precision),
the only directive under which this program formats an operand: a string is
written as is, a string slice as `[a b c]`.  `none` marks a directive outside
this fragment of the library. -/
def printArg (f : Fmt) (arg : Value) (verb : Char) : Option (List Char) :=
  if verb = 'v' ∧ f.isPlain then
    match arg with
    | Value.str s => some s.data
    | Value.strs v => some (printSlice v)
  else none

/-- The `v` case of the verb switch: `#` and `+` become `sharpV` and `plusV`. -/
def Fmt.forV (f : Fmt) : Fmt :=
  { f with sharpV := f.sharp, sharp := false, plusV := f.plus, plus := false }

/-- Width of a directive (after the optional argument index). -/
def parseWidth (p : PP) (a : List Value) (argNum : Nat) (format : List Char)
    (afterIndex : Bool) : PP × Nat × List Char × Bool :=
  match format with
  | '*' :: rest =>
    match intFromArg a argNum with
    | (wid, widPresent, argNum) =>
      let p := { p with fmt := { p.fmt with wid := wid, widPresent := widPresent } }
      let p := if !widPresent then p.writeString badWidthString else p
      (p, argNum, rest, false)
  | _ =>
    match parsenum format with
    | (wid, widPresent, rest) =>
      let p := { p with fmt := { p.fmt with wid := wid, widPresent := widPresent } }
      let p := if afterIndex && widPresent then { p with goodArgNum := false } else p
      (p, argNum, rest, afterIndex)

/-- Precision of a directive. -/
def parsePrecision (p : PP) (a : List Value) (argNum : Nat) (format : List Char)
    (afterIndex : Bool) : PP × Nat × List Char × Bool :=
  match format with
  | '.' :: rest =>
    let p := if afterIndex then { p with goodArgNum := false } else p
    match argNumber p argNum rest a.length with
    | (p, argNum, rest, afterIndex) =>
      match rest with
      | '*' :: rest =>
        match intFromArg a argNum with
        | (prec, precPresent, argNum) =>
          let p := { p with fmt := { p.fmt with prec := prec, precPresent := precPresent } }
          let p := if !precPresent then p.writeString badPrecString else p
          (p, argNum, rest, false)
      | _ =>
        match parsenum rest with
        | (prec, precPresent, rest) =>
          let p :=
            if !precPresent then { p with fmt := { p.fmt with prec := 0, precPresent := true } }
            else { p with fmt := { p.fmt with prec := prec, precPresent := precPresent } }
          (p, argNum, rest, afterIndex)
  | _ => (p, argNum, format, afterIndex)

/-- The verb switch at the end of a directive. -/
def printVerb (p : PP) (a : List Value) (argNum : Nat) (verb : Char) : Option (PP × Nat) :=
  if verb = '%' then some (p.writeString ['%'], argNum)
  else if !p.goodArgNum then
    some (p.writeString (percentBangString ++ [verb] ++ badIndexString), argNum)
  else
    match a.get? argNum with
    | none => some (p.writeString (percentBangString ++ [verb] ++ missingString), argNum)
    | some arg =>
      let f := if verb = 'v' then p.fmt.forV else p.fmt
      (printArg f arg verb).map (fun s => ({ p with fmt := f }.writeString s, argNum + 1))

/-- The fast path at the end of the flag loop: the next character is a lower-case
ASCII letter and an operand is left.  Yields the operand, the verb and the unread
format. -/
def fastVerb (format : List Char) (a : List Value) (argNum : Nat) :
    Option (Value × Char × List Char) :=
  match format with
  | c :: rest =>
    if 'a' ≤ c ∧ c ≤ 'z' then (a.get? argNum).map (fun arg => (arg, c, rest)) else none
  | [] => none

/-- The general path of a directive, between the flags and the verb: argument
index, width, precision, argument index. -/
def parseDirective (p : PP) (a : List Value) (argNum : Nat) (format : List Char) :
    PP × Nat × List Char :=
  match argNumber p argNum format a.length with
  | (p, argNum, format, afterIndex) =>
    match parseWidth p a argNum format afterIndex with
    | (p, argNum, format, afterIndex) =>
      match parsePrecision p a argNum format afterIndex with
      | (p, argNum, format, afterIndex) =>
        if !afterIndex then
          match argNumber p argNum format a.length with
          | (p, argNum, format, _) => (p, argNum, format)
        else (p, argNum, format)

/-- The loop `formatLoop` of `pp.doPrintf`.  One round writes the text up to the
next `%` and interprets one directive; the result is the printer and the
argument number when the loop is left.  `fuel` bounds the number of rounds. -/
def doPrintfLoop : Nat → List Char → List Value → Nat → PP → Option (PP × Nat)
  | 0, _, _, _, _ => none
  | fuel + 1, format, a, argNum, p =>
    let p := { p with goodArgNum := true }
    let p := p.writeString (format.takeWhile (fun c => c != '%'))
    match format.dropWhile (fun c => c != '%') with
    | [] => some (p, argNum)
    | _ :: format =>
      match parseFlags format p.fmt.clearflags with
      | (f, format) =>
        let p := { p with fmt := f }
        match fastVerb format a argNum with
        | some (arg, c, rest) =>
          let f := if c = 'v' ∨ c = 'w' then p.fmt.forV else p.fmt
          match printArg f arg c with
          | none => none
          | some s => doPrintfLoop fuel rest a (argNum + 1) ({ p with fmt := f }.writeString s)
        | none =>
          match parseDirective p a argNum format with
          | (p, argNum, format) =>
            match format with
            | [] => some (p.writeString noVerbString, argNum)
            | verb :: format =>
              match printVerb p a argNum verb with
              | none => none
              | some (p, argNum) => doPrintfLoop fuel format a argNum p

/-- Go's name of an operand's dynamic type. -/
def Value.typeString : Value → List Char
  | Value.str _ => "string".data
  | Value.strs _ => "[]string".data

/-- The list written inside `%!(EXTRA …)`. -/
def printExtra (f : Fmt) : List Value → Option (List (List Char))
  | [] => some []
  | arg :: rest =>
    match printArg f arg 'v', printExtra f rest with
    | some s, some r => some ((arg.typeString ++ '=' :: s) :: r)
    | _, _ => none

/-- Body of `pp.doPrintf`: the format loop, then the report of operands that were
left over. -/
def doPrintf (format : List Char) (a : List Value) : Option (List Char) :=
  match doPrintfLoop (format.length + 1) format a 0 newPrinter with
  | none => none
  | some (p, argNum) =>
    if !p.reordered && decide (argNum < a.length) then
      match printExtra p.fmt.clearflags (a.drop argNum) with
      | none => none
      | some items =>
        some (p.buf ++ extraString ++ commaSpaceString.intercalate items ++ [')'])
    else some p.buf

/-- `fmt.Sprintf`. -/
def Sprintf (format : String) (a : List Value) : Option String :=
  (doPrintf format.data a).map String.mk

/-! ## `net/http`: requests, response writers, headers -/

/-- A `http.Header`, a `map[string][]string`, as its list of entries. -/
abbrev Header := List (String × List String)

/-- The entries of a map have pairwise distinct keys. -/
def Header.WellFormed (h : Header) : Prop := (h.map Prod.fst).Nodup

instance (h : Header) : Decidable h.WellFormed := by
  unfold Header.WellFormed; infer_instance

/-- `Header.Get(key)`: the first value stored under the canonical form of `key`,
or `""`.  The only key the program asks for, `X-Forwarded-For`, is its own
canonical form, so the key is looked up as given. -/
def Header.Get (h : Header) (key : String) : String :=
  match h.lookup key with
  | some (v :: _) => v
  | _ => ""

/-- The fields of `url.URL` that routing reads. -/
structure URL where
  Host : String
  Path : String
  RawQuery : String
deriving DecidableEq, Repr

/-- The fields of `http.Request` that the program and the router read. -/
structure Request where
  Method : String
  URL : URL
  Header : Header
  Host : String
  RemoteAddr : String
deriving DecidableEq, Repr

/-- A `http.ResponseWriter`: the status line once written, and the body bytes
written so far. -/
structure ResponseWriter where
  wroteHeader : Bool
  status : Nat
  body : String
deriving DecidableEq, Repr

/-- The writer a handler receives: nothing written yet. -/
def ResponseWriter.fresh : ResponseWriter := { wroteHeader := false, status := 0, body := "" }

/-- `StatusOK`. -/
def StatusOK : Nat := 200

/-- `ResponseWriter.Write`: the first write sends `WriteHeader(StatusOK)` when no
header was written before. -/
def ResponseWriter.Write (w : ResponseWriter) (data : String) : ResponseWriter :=
  { wroteHeader := true,
    status := if w.wroteHeader then w.status else StatusOK,
    body := w.body ++ data }

/-- `fmt.Fprintf(w, format, a...)`. -/
def Fprintf (w : ResponseWriter) (format : String) (a : List Value) : Option ResponseWriter :=
  (Sprintf format a).map w.Write

/-! ## `server.go`: the three handlers -/

/-- Lines 22-29 of `rootHandler`: the message `resp` it builds. -/
def rootResp (req : Request) : Option String :=
  let remoteAddress := req.RemoteAddr
  let fwdAddress := req.Header.Get "X-Forwarded-For"
  let resp := "Got / request from Connecting from %v"
  if fwdAddress.length > 0 then
    Sprintf (resp ++ ", forwarded by %v!\n") [Value.str fwdAddress, Value.str remoteAddress]
  else
    Sprintf resp [Value.str remoteAddress]

/-- `rootHandler` (server.go, lines 21-31): `resp` is built, then handed to
`fmt.Fprintf` as the format, without operands (line 30). -/
def rootHandler (w : ResponseWriter) (req : Request) : Option ResponseWriter :=
  match rootResp req with
  | none => none
  | some resp => Fprintf w resp []

/-- One round of the loop of `headerdumpHandler` (line 35). -/
def headerdumpLine (w : ResponseWriter) (kv : String × List String) : Option ResponseWriter :=
  Fprintf w "%v: %v\n" [Value.str kv.1, Value.strs kv.2]

/-- The loop `for k, v := range r.Header` run over the entries in the order
`order` in which the runtime happens to yield them. -/
def headerdumpLoop : List (String × List String) → ResponseWriter → Option ResponseWriter
  | [], w => some w
  | kv :: rest, w =>
    match headerdumpLine w kv with
    | none => none
    | some w => headerdumpLoop rest w

/-- `headerdumpHandler` (server.go, lines 33-39) for one iteration order of the
header map. -/
def headerdumpHandlerIn (order : List (String × List String)) (w : ResponseWriter)
    (r : Request) : Option ResponseWriter :=
  match headerdumpLoop order w with
  | none => none
  | some w => Fprintf w "Host: [%v]\n" [Value.str r.Host]

/-- A run of `headerdumpHandler`: Go leaves the iteration order of a `range` over
a map unspecified ("not guaranteed to be the same from one iteration to the
next"), so a run is the handler executed in some order of the map's entries. -/
def headerdumpHandler (w : ResponseWriter) (r : Request) (w' : ResponseWriter) : Prop :=
  ∃ order : List (String × List String),
    order.Perm r.Header ∧ headerdumpHandlerIn order w r = some w'

/-- `healthCheckHandler` (server.go, lines 41-43). -/
def healthCheckHandler (w : ResponseWriter) (_req : Request) : Option ResponseWriter :=
  Fprintf w "ok\n" []

/-! ## `net/http`: `ServeMux` (Go 1.20) -/

/-- The handler values the router can hold or answer with.  `RedirectHandler`
keeps the target URL instead of its text `u.String()`. -/
inductive Handler where
  | rootHandler
  | headerdumpHandler
  | healthCheckHandler
  | NotFoundHandler
  | RedirectHandler (u : URL) (code : Nat)
deriving DecidableEq, Repr

/-- `StatusMovedPermanently`. -/
def StatusMovedPermanently : Nat := 301

structure muxEntry where
  h : Handler
  pattern : String
deriving DecidableEq, Repr

/-- `ServeMux`: the map `m` as its list of entries, the slash-terminated entries
`es` sorted from longest to shortest, and `hosts`. -/
structure ServeMux where
  m : List (String × muxEntry)
  es : List muxEntry
  hosts : Bool
deriving DecidableEq, Repr

/-- `http.NewServeMux()`. -/
def NewServeMux : ServeMux := { m := [], es := [], hosts := false }

/-- `strings.HasPrefix`. -/
def HasPrefix (s pre : String) : Bool := pre.data.isPrefixOf s.data

/-- `appendSorted`: `sort.Search` on the sorted `es` yields the first index whose
pattern is shorter than the new one; the entry is inserted there. -/
def appendSorted (es : List muxEntry) (e : muxEntry) : List muxEntry :=
  let i := es.findIdx (fun x => decide (x.pattern.utf8ByteSize < e.pattern.utf8ByteSize))
  es.take i ++ e :: es.drop i

/-- `ServeMux.Handle`; an `error` is the panic message. -/
def ServeMux.Handle (mux : ServeMux) (pattern : String) (handler : Handler) :
    Except String ServeMux :=
  if pattern = "" then Except.error "http: invalid pattern"
  else if (mux.m.lookup pattern).isSome then
    Except.error ("http: multiple registrations for " ++ pattern)
  else
    let e : muxEntry := { h := handler, pattern := pattern }
    Except.ok
      { m := mux.m ++ [(pattern, e)],
        es := if pattern.data.getLast? = some '/' then appendSorted mux.es e else mux.es,
        hosts := if pattern.data.head? ≠ some '/' then true else mux.hosts }

/-- `ServeMux.HandleFunc`. -/
def ServeMux.HandleFunc (mux : ServeMux) (pattern : String) (handler : Handler) :
    Except String ServeMux :=
  mux.Handle pattern handler

/-- `setupHandlers` (server.go, lines 45-49). -/
def setupHandlers (mux : ServeMux) : Except String ServeMux :=
  match mux.HandleFunc "/healthz" Handler.healthCheckHandler with
  | Except.error e => Except.error e
  | Except.ok mux =>
    match mux.HandleFunc "/" Handler.rootHandler with
    | Except.error e => Except.error e
    | Except.ok mux => mux.HandleFunc "/headers" Handler.headerdumpHandler

/-- `ServeMux.match`: exact match first, then the longest registered subtree
pattern (one ending in `/`) that is a prefix of the path. -/
def ServeMux.matchPath (mux : ServeMux) (path : String) : Option (Handler × String) :=
  match mux.m.lookup path with
  | some v => some (v.h, v.pattern)
  | none =>
    match mux.es.find? (fun e => HasPrefix path e.pattern) with
    | some e => some (e.h, e.pattern)
    | none => none

/-- `ServeMux.handler`. -/
def ServeMux.handler (mux : ServeMux) (host path : String) : Handler × String :=
  let r := if mux.hosts then mux.matchPath (host ++ path) else none
  let r := if r.isNone then mux.matchPath path else r
  match r with
  | some hp => hp
  | none => (Handler.NotFoundHandler, "")

/-- `ServeMux.shouldRedirectRLocked`. -/
def ServeMux.shouldRedirectRLocked (mux : ServeMux) (host path : String) : Bool :=
  let p := [path, host ++ path]
  if p.any (fun c => (mux.m.lookup c).isSome) then false
  else if path.utf8ByteSize = 0 then false
  else if p.any (fun c => (mux.m.lookup (c ++ "/")).isSome) then
    path.data.getLast? != some '/'
  else false

/-- `ServeMux.redirectToPathSlash`: `some u` when a redirect to `path + "/"` is
due. -/
def ServeMux.redirectToPathSlash (mux : ServeMux) (host path : String) (u : URL) : Option URL :=
  if mux.shouldRedirectRLocked host path then
    some { Host := "", Path := path ++ "/", RawQuery := u.RawQuery }
  else none

/-! ### `path.Clean` and `cleanPath` -/

/-- The inner loop of the `..` case of `path.Clean`, on the reversed output:
after dropping one character, it keeps dropping while the buffer is longer than
`dotdot` and the character dropped last is not `/`. -/
def backtrack (dotdot : Nat) : List Char → Char → List Char
  | [], _ => []
  | x :: rev, removed =>
    if (x :: rev).length > dotdot ∧ removed ≠ '/' then backtrack dotdot rev x
    else x :: rev

/-- The main loop of `path.Clean`: `path` is the unread input `path[r:]`, `out`
the output buffer, `fuel` bounds the number of rounds. -/
def cleanLoop (rooted : Bool) : Nat → List Char → List Char → Nat → List Char
  | 0, _, out, _ => out
  | fuel + 1, path, out, dotdot =>
    match path with
    | [] => out
    | c :: rest =>
      if c = '/' then cleanLoop rooted fuel rest out dotdot
      else if c = '.' ∧ (rest = [] ∨ rest.head? = some '/') then
        cleanLoop rooted fuel rest out dotdot
      else if c = '.' ∧ rest.head? = some '.' ∧
          (rest.drop 1 = [] ∨ (rest.drop 1).head? = some '/') then
        if out.length > dotdot then
          match out.reverse with
          | [] => cleanLoop rooted fuel (rest.drop 1) out dotdot
          | x :: rev => cleanLoop rooted fuel (rest.drop 1) (backtrack dotdot rev x).reverse dotdot
        else if !rooted then
          let out := if out.length > 0 then out ++ ['/'] else out
          let out := out ++ ['.', '.']
          cleanLoop rooted fuel (rest.drop 1) out out.length
        else cleanLoop rooted fuel (rest.drop 1) out dotdot
      else
        let out := if (rooted && out.length != 1) || (!rooted && out.length != 0)
                   then out ++ ['/'] else out
        cleanLoop rooted fuel ((c :: rest).dropWhile (fun x => x != '/'))
          (out ++ (c :: rest).takeWhile (fun x => x != '/')) dotdot

/-- `path.Clean`. -/
def Clean (path : String) : String :=
  if path = "" then "."
  else
    let rooted : Bool := path.data.head? == some '/'
    let out :=
      if rooted then cleanLoop rooted path.data.length (path.data.drop 1) ['/'] 1
      else cleanLoop rooted path.data.length path.data [] 0
    if out = [] then "." else String.mk out

/-- `cleanPath` of `net/http`. -/
def cleanPath (p : String) : String :=
  if p = "" then "/"
  else
    let p := if p.data.head? ≠ some '/' then "/" ++ p else p
    let np := Clean p
    if p.data.getLast? = some '/' ∧ np ≠ "/" then
      if p.utf8ByteSize = np.utf8ByteSize + 1 ∧ HasPrefix p np then p else np ++ "/"
    else np

/-! ### `net.SplitHostPort` and `stripHostPort` -/

/-- `bytealg.IndexByteString`. -/
def IndexByteString (s : List Char) (c : Char) : Option Nat :=
  if s.indexOf c < s.length then some (s.indexOf c) else none

/-- `last(s, b)`: index of the last occurrence. -/
def last (s : List Char) (c : Char) : Option Nat :=
  match IndexByteString s.reverse c with
  | some j => some (s.length - 1 - j)
  | none => none

/-- `net.SplitHostPort`; `none` is the error result. -/
def SplitHostPort (hostport : List Char) : Option (List Char × List Char) :=
  match last hostport ':' with
  | none => none
  | some i =>
    if hostport.head? = some '[' then
      match IndexByteString hostport ']' with
      | none => none
      | some close =>
        if close + 1 = hostport.length then none
        else if close + 1 = i then
          if (IndexByteString (hostport.drop 1) '[').isSome then none
          else if (IndexByteString (hostport.drop (close + 1)) ']').isSome then none
          else some ((hostport.take close).drop 1, hostport.drop (i + 1))
        else none
    else
      if (IndexByteString (hostport.take i) ':').isSome then none
      else if (IndexByteString hostport '[').isSome then none
      else if (IndexByteString hostport ']').isSome then none
      else some (hostport.take i, hostport.drop (i + 1))

/-- `stripHostPort` of `net/http`. -/
def stripHostPort (h : String) : String :=
  if !h.data.contains ':' then h
  else
    match SplitHostPort h.data with
    | none => h
    | some (host, _) => String.mk host

/-- `ServeMux.Handler`: the handler for a request and the pattern that matched. -/
def ServeMux.Handler (mux : ServeMux) (r : Request) : Handler × String :=
  if r.Method = "CONNECT" then
    match mux.redirectToPathSlash r.URL.Host r.URL.Path r.URL with
    | some u => (Handler.RedirectHandler u StatusMovedPermanently, u.Path)
    | none => mux.handler r.Host r.URL.Path
  else
    let host := stripHostPort r.Host
    let path := cleanPath r.URL.Path
    match mux.redirectToPathSlash host path r.URL with
    | some u => (Handler.RedirectHandler u StatusMovedPermanently, u.Path)
    | none =>
      if path ≠ r.URL.Path then
        (Handler.RedirectHandler { Host := "", Path := path, RawQuery := r.URL.RawQuery }
           StatusMovedPermanently, (mux.handler host path).2)
      else mux.handler host r.URL.Path

/-! ## Errors, logging and process exit -/

/-- An `error` value: the sentinel `http.ErrServerClosed`, any other error, or an
error wrapping another one (`Unwrap`). -/
inductive GoError where
  | ErrServerClosed
  | other (msg : String)
  | wrap (msg : String) (inner : GoError)
deriving DecidableEq, Repr

/-- `errors.Is` on a non-nil error: the error or one it wraps is the target. -/
def GoError.is : GoError → GoError → Bool
  | GoError.wrap msg inner, target =>
    decide (GoError.wrap msg inner = target) || GoError.is inner target
  | err, target => decide (err = target)

/-- `errors.Is(err, target)` for a possibly nil `err` and a non-nil target. -/
def errorsIs (err : Option GoError) (target : GoError) : Bool :=
  match err with
  | none => false
  | some e => e.is target

/-- An operand of a log call. -/
inductive LogArg where
  | str (s : String)
  | err (e : GoError)
deriving DecidableEq, Repr

/-- One call of `log.Printf` (or the print half of `log.Fatalf`): the format and
its operands, as passed. -/
structure LogEntry where
  format : String
  args : List LogArg
deriving DecidableEq, Repr

/-- The outcome of a function that logs and may end the process: it returns a
value, or the process exits (`os.Exit`) with a code. -/
inductive Proc (α : Type) where
  | ret (log : List LogEntry) (val : α)
  | exit (log : List LogEntry) (code : Nat)

/-! ## `server.go`: configuration and server construction -/

/-- `Config` (server.go, lines 14-19). -/
structure Config where
  HttpsListenPort : Int
  HttpListenPort : Int
  TlsCert : String
  TlsKey : String
deriving DecidableEq, Repr

/-- `tls.Config`, with the one field the program sets; `Cert` is the type of a
loaded `tls.Certificate`. -/
structure TlsConfig (Cert : Type) where
  Certificates : List Cert

/-- `http.Server`, with the fields the program sets. -/
structure Server (Cert : Type) where
  Addr : String
  TLSConfig : Option (TlsConfig Cert)
  Handler : Option ServeMux

/-- `strconv.Itoa`: the decimal text of an integer, with `-` for a negative one. -/
def Itoa (i : Int) : String :=
  if i < 0 then "-" ++ Nat.repr i.natAbs else Nat.repr i.natAbs

/-- `parseTlsConfig` (server.go, lines 51-58).  `LoadX509KeyPair` is
`tls.LoadX509KeyPair`, which reads the two files: its result is an input. -/
def parseTlsConfig {Cert : Type} (LoadX509KeyPair : String → String → Except GoError Cert)
    (c : Config) : Proc (Option (TlsConfig Cert)) :=
  match LoadX509KeyPair c.TlsCert c.TlsKey with
  | Except.error err =>
    Proc.ret [{ format := "Failed to load keypair [%s, %s]: %s",
                args := [LogArg.str c.TlsCert, LogArg.str c.TlsKey, LogArg.err err] }] none
  | Except.ok cer => Proc.ret [] (some { Certificates := [cer] })

/-- `newHttpServer` (server.go, lines 60-64). -/
def newHttpServer {Cert : Type} (c : Config) : Server Cert :=
  { Addr := ":" ++ Itoa c.HttpListenPort, TLSConfig := none, Handler := none }

/-- `newHttpsServer` (server.go, lines 66-71). -/
def newHttpsServer {Cert : Type} (LoadX509KeyPair : String → String → Except GoError Cert)
    (c : Config) : Proc (Server Cert) :=
  match parseTlsConfig LoadX509KeyPair c with
  | Proc.exit log code => Proc.exit log code
  | Proc.ret log tlsConfig =>
    Proc.ret log { Addr := ":" ++ Itoa c.HttpsListenPort, TLSConfig := tlsConfig, Handler := none }

/-! ## `server.go`: the two listener tasks of `main` -/

/-- The two listeners. -/
inductive Listener where
  | https
  | http
deriving DecidableEq, Repr

/-- What the `if`/`else if` after a listener call does: the log it writes, and
whether it ends the process (`log.Fatalf` prints, then calls `os.Exit(1)`). -/
structure Branch where
  log : List LogEntry
  fatal : Bool
deriving DecidableEq, Repr

/-- Lines 94-98: the HTTPS task after `ListenAndServeTLS` returned `err`. -/
def httpsBranch (err : Option GoError) : Branch :=
  if errorsIs err GoError.ErrServerClosed then
    { log := [{ format := "https responder closed\n", args := [] }], fatal := false }
  else
    match err with
    | some e =>
      { log := [{ format := "error listening for https: %s\n", args := [LogArg.err e] }],
        fatal := false }
    | none => { log := [], fatal := false }

/-- Lines 104-108: the HTTP task after `ListenAndServe` returned `err`. -/
def httpBranch (err : Option GoError) : Branch :=
  if errorsIs err GoError.ErrServerClosed then
    { log := [{ format := "http responder closed\n", args := [] }], fatal := false }
  else
    match err with
    | some e =>
      { log := [{ format := "error listening for http: %s\n", args := [LogArg.err e] }],
        fatal := true }
    | none => { log := [], fatal := false }

def branch : Listener → Option GoError → Branch
  | Listener.https => httpsBranch
  | Listener.http => httpBranch

/-- The first statement of a task (lines 92 and 102). -/
def startLog (l : Listener) (addr : String) : LogEntry :=
  match l with
  | Listener.https =>
    { format := "Starting listening for incoming HTTPS requests on %v", args := [LogArg.str addr] }
  | Listener.http =>
    { format := "Starting listening for incoming HTTP requests on %v", args := [LogArg.str addr] }

/-- What one run of a task body did: its log, whether it reached `wg.Done()`, and
the exit code if it ended the process. -/
structure TaskResult where
  log : List LogEntry
  done : Bool
  exited : Option Nat
deriving DecidableEq, Repr

/-- A task body (lines 91-100, 101-110) run to its end, given the result `err`
with which its listener call returned. -/
def listenerTask (l : Listener) (addr : String) (err : Option GoError) : TaskResult :=
  let b := branch l err
  if b.fatal then { log := startLog l addr :: b.log, done := false, exited := some 1 }
  else { log := startLog l addr :: b.log, done := true, exited := none }

/-! ## `server.go`: `main` from line 88 on, as an interleaving of three threads -/

/-- Program counter of `main`: before `wg.Add(2)`, before the first `go`, before
the second `go`, at `wg.Wait()`, returned. -/
inductive MainPc where
  | atAdd
  | atGoHttps
  | atGoHttp
  | atWait
  | returned
deriving DecidableEq, Repr

/-- Program counter of a listener task: not launched, at its first log line,
inside the listener call, after the call returned `err`, at `wg.Done()`,
finished. -/
inductive TaskPc where
  | notStarted
  | atStart
  | serving
  | afterServe (err : Option GoError)
  | atDone (err : Option GoError)
  | finished (err : Option GoError)
deriving DecidableEq, Repr

/-- State of the process: the `WaitGroup` counter, the three program counters,
the exit code once the process was ended, the log, and how often each task has
called `wg.Done()`. -/
structure State where
  wg : Int
  main : MainPc
  https : TaskPc
  http : TaskPc
  exited : Option Nat
  log : List LogEntry
  httpsDone : Nat
  httpDone : Nat
deriving DecidableEq, Repr

/-- State at line 88: fresh `WaitGroup`, no task launched. -/
def State.init : State :=
  { wg := 0, main := MainPc.atAdd, https := TaskPc.notStarted, http := TaskPc.notStarted,
    exited := none, log := [], httpsDone := 0, httpDone := 0 }

/-- What can happen next: the scheduler runs one statement of `main` or of a
task, or the listener call of a task returns with a result. -/
inductive Event where
  | main
  | task (l : Listener)
  | listenerReturns (l : Listener) (err : Option GoError)
deriving DecidableEq, Repr

def State.pc (s : State) : Listener → TaskPc
  | Listener.https => s.https
  | Listener.http => s.http

def State.setPc (s : State) (l : Listener) (pc : TaskPc) : State :=
  match l with
  | Listener.https => { s with https := pc }
  | Listener.http => { s with http := pc }

/-- The bookkeeping of `wg.Done()` by task `l`: the counter goes down by one; a
negative counter is the panic of `sync.WaitGroup`, which ends the process with
code 2. -/
def State.done (s : State) (l : Listener) (err : Option GoError) : State :=
  if s.wg - 1 < 0 then { s with exited := some 2 }
  else
    match l with
    | Listener.https =>
      { s with wg := s.wg - 1, https := TaskPc.finished err, httpsDone := s.httpsDone + 1 }
    | Listener.http =>
      { s with wg := s.wg - 1, http := TaskPc.finished err, httpDone := s.httpDone + 1 }

/-- One step of the process; `none` when the event is not enabled.  Nothing runs
once the process was ended or `main` has returned. -/
def step (httpsAddr httpAddr : String) (s : State) (e : Event) : Option State :=
  if s.exited.isSome || decide (s.main = MainPc.returned) then none
  else
    match e with
    | Event.main =>
      match s.main with
      | MainPc.atAdd => some { s with wg := s.wg + 2, main := MainPc.atGoHttps }
      | MainPc.atGoHttps =>
        some { s with https := TaskPc.atStart, main := MainPc.atGoHttp }
      | MainPc.atGoHttp =>
        some { s with http := TaskPc.atStart, main := MainPc.atWait }
      | MainPc.atWait => if s.wg = 0 then some { s with main := MainPc.returned } else none
      | MainPc.returned => none
    | Event.task l =>
      match s.pc l with
      | TaskPc.atStart =>
        some ({ s with log := s.log ++
                  [startLog l (match l with
                               | Listener.https => httpsAddr
                               | Listener.http => httpAddr)] }.setPc l TaskPc.serving)
      | TaskPc.afterServe err =>
        let b := branch l err
        if b.fatal then some { s with log := s.log ++ b.log, exited := some 1 }
        else some ({ s with log := s.log ++ b.log }.setPc l (TaskPc.atDone err))
      | TaskPc.atDone err => some (s.done l err)
      | _ => none
    | Event.listenerReturns l err =>
      match s.pc l with
      | TaskPc.serving => some (s.setPc l (TaskPc.afterServe err))
      | _ => none

/-- A run: the events of a schedule applied in order. -/
def run (httpsAddr httpAddr : String) : State → List Event → Option State
  | s, [] => some s
  | s, e :: es =>
    match step httpsAddr httpAddr s e with
    | none => none
    | some s => run httpsAddr httpAddr s es

/-- The listener of a task has reached a terminal state: its call has returned. -/
def TaskPc.terminal : TaskPc → Bool
  | TaskPc.afterServe _ => true
  | TaskPc.atDone _ => true
  | TaskPc.finished _ => true
  | _ => false

/-- How many times a task at this program counter has called `wg.Done()`. -/
def TaskPc.doneCount : TaskPc → Nat
  | TaskPc.finished _ => 1
  | _ => 0

/-- The invariant of the process: the counter is two minus the calls of `Done`
once it was set, no task runs before it was set, `main` is past `wg.Wait()` only
with the counter at zero, and the process was ended only by the fatal branch of
the HTTP task. -/
def Inv (s : State) : Prop :=
  s.httpsDone = s.https.doneCount ∧ s.httpDone = s.http.doneCount ∧
  (match s.main with
   | MainPc.atAdd => s.wg = 0 ∧ s.https = TaskPc.notStarted ∧ s.http = TaskPc.notStarted
   | MainPc.atGoHttps => s.wg = 2 ∧ s.https = TaskPc.notStarted ∧ s.http = TaskPc.notStarted
   | MainPc.atGoHttp =>
     s.wg = 2 - (s.https.doneCount : Int) ∧ s.https ≠ TaskPc.notStarted ∧
       s.http = TaskPc.notStarted
   | MainPc.atWait =>
     s.wg = 2 - (s.https.doneCount : Int) - (s.http.doneCount : Int) ∧
       s.https ≠ TaskPc.notStarted ∧ s.http ≠ TaskPc.notStarted
   | MainPc.returned =>
     s.wg = 0 ∧ s.https.doneCount = 1 ∧ s.http.doneCount = 1 ∧ s.exited = none) ∧
  (∀ code, s.exited = some code →
     code = 1 ∧ ∃ e, s.http = TaskPc.afterServe (some e) ∧
       errorsIs (some e) GoError.ErrServerClosed = false)

/-! ## Specification-side vocabulary -/

/-- The line the specification gives for one received header, `<Name>: <Values>`:
the name, then the values as a bracketed, space-separated list. -/
def headerLine (kv : String × List String) : String :=
  kv.1 ++ ": [" ++ " ".intercalate kv.2 ++ "]\n"

/-- The final line of the header dump, `Host: [<host>]`. -/
def hostLine (host : String) : String :=
  "Host: [" ++ host ++ "]\n"

/-- The router `setupHandlers` builds from `http.NewServeMux()` (server.go, line
75 and line 81). -/
def router : ServeMux :=
  { m := [("/healthz", { h := Handler.healthCheckHandler, pattern := "/healthz" }),
          ("/", { h := Handler.rootHandler, pattern := "/" }),
          ("/headers", { h := Handler.headerdumpHandler, pattern := "/headers" })],
    es := [{ h := Handler.rootHandler, pattern := "/" }],
    hosts := false }

/-! ## Concrete inputs -/

/-- A `GET` request for `path` on host `example.com`, with the given headers and
peer address. -/
def getRequest (path : String) (header : Header) (remoteAddr : String) : Request :=
  { Method := "GET", URL := { Host := "", Path := path, RawQuery := "" },
    Header := header, Host := "example.com", RemoteAddr := remoteAddr }

/-- The state in which `main` has returned after the HTTPS listener failed to
start and the HTTP listener was closed. -/
def joinedState : State :=
  { wg := 0, main := MainPc.returned,
    https := TaskPc.finished (some (GoError.other "tls: no certificate")),
    http := TaskPc.finished (some GoError.ErrServerClosed),
    exited := none,
    log := [{ format := "Starting listening for incoming HTTPS requests on %v",
              args := [LogArg.str ":8443"] },
            { format := "Starting listening for incoming HTTP requests on %v",
              args := [LogArg.str ":8080"] },
            { format := "error listening for https: %s\n",
              args := [LogArg.err (GoError.other "tls: no certificate")] },
            { format := "http responder closed\n", args := [] }],
    httpsDone := 1, httpDone := 1 }

/-! ## Facts about the formatter -/

/-- A format without `%` is written out unchanged when there are no operands. -/
theorem doPrintf_of_no_percent (l : List Char) (h : '%' ∉ l) : doPrintf l [] = some l := by
  have h1 : l.takeWhile (fun c => c != '%') = l := by
    rw [List.takeWhile_eq_self_iff]
    intro c hc
    simp only [bne_iff_ne, ne_eq]
    rintro rfl
    exact h hc
  have h2 : l.dropWhile (fun c => c != '%') = [] := by
    rw [List.dropWhile_eq_nil_iff]
    intro c hc
    simp only [bne_iff_ne, ne_eq]
    rintro rfl
    exact h hc
  simp [doPrintf, doPrintfLoop, h1, h2, PP.writeString, newPrinter]

/-- `Fprintf` of a text without `%`, without operands, appends the text. -/
theorem Fprintf_of_no_percent (w : ResponseWriter) (s : String) (h : '%' ∉ s.data) :
    Fprintf w s [] = some (w.Write s) := by
  simp [Fprintf, Sprintf, doPrintf_of_no_percent s.data h]

/-- The template of the forwarded branch, applied to its two operands in the
order of line 26. -/
theorem Sprintf_forwarded (x y : String) :
    Sprintf ("Got / request from Connecting from %v" ++ ", forwarded by %v!\n")
        [Value.str x, Value.str y]
      = some ("Got / request from Connecting from " ++ x ++ ", forwarded by " ++ y ++ "!\n") :=
  rfl

/-- The template of the direct branch (line 28). -/
theorem Sprintf_direct (x : String) :
    Sprintf "Got / request from Connecting from %v" [Value.str x]
      = some ("Got / request from Connecting from " ++ x) := by
  have h : Sprintf "Got / request from Connecting from %v" [Value.str x]
      = some (String.mk (("Got / request from Connecting from ".data ++ x.data) ++ [])) := rfl
  rw [h, List.append_nil]
  rfl

theorem Sprintf_headerLine (k : String) (v : List String) :
    Sprintf "%v: %v\n" [Value.str k, Value.strs v]
      = some (k ++ ": [" ++ " ".intercalate v ++ "]\n") := by
  have h : Sprintf "%v: %v\n" [Value.str k, Value.strs v]
      = some (String.mk (((k.data ++ ": ".data) ++ printSlice v) ++ "\n".data)) := rfl
  rw [h]
  congr 1
  apply String.ext
  simp [printSlice]

theorem Sprintf_hostLine (h : String) :
    Sprintf "Host: [%v]\n" [Value.str h] = some ("Host: [" ++ h ++ "]\n") :=
  rfl

theorem length_pos_iff_ne_empty (s : String) : s.length > 0 ↔ s ≠ "" := by
  rw [String.length, gt_iff_lt, List.length_pos]
  constructor
  · intro h e; apply h; rw [e]
  · intro h e; apply h; exact String.ext e

theorem rootHandler_direct (req : Request)
    (hF : req.Header.Get "X-Forwarded-For" = "")
    (hR : '%' ∉ req.RemoteAddr.data) :
    rootHandler ResponseWriter.fresh req =
      some { wroteHeader := true, status := 200,
             body := "Got / request from Connecting from " ++ req.RemoteAddr } := by
  have hresp : rootResp req = some ("Got / request from Connecting from " ++ req.RemoteAddr) := by
    unfold rootResp
    simp only [hF]
    exact Sprintf_direct _
  have hp : '%' ∉ ("Got / request from Connecting from " ++ req.RemoteAddr).data := by
    simp only [String.data_append, List.mem_append, not_or]
    exact ⟨by decide, hR⟩
  unfold rootHandler
  rw [hresp]
  simp only
  rw [Fprintf_of_no_percent _ _ hp]
  simp [ResponseWriter.Write, ResponseWriter.fresh, StatusOK]

/-! ## The header dump -/

theorem headerdumpLine_eq (w : ResponseWriter) (kv : String × List String) :
    headerdumpLine w kv = some (w.Write (headerLine kv)) := by
  simp [headerdumpLine, Fprintf, Sprintf_headerLine, headerLine]

theorem join_cons_eq (s : String) (ss : List String) :
    String.join (s :: ss) = s ++ String.join ss := by
  apply String.ext
  simp [String.data_join]

theorem headerdumpLoop_eq (order : List (String × List String)) (w : ResponseWriter) :
    headerdumpLoop order w =
      some { wroteHeader := w.wroteHeader || !order.isEmpty,
             status := if w.wroteHeader || order.isEmpty then w.status else StatusOK,
             body := w.body ++ String.join (order.map headerLine) } := by
  induction order generalizing w with
  | nil =>
    cases w
    simp [headerdumpLoop, String.join]
  | cons kv rest ih =>
    simp only [headerdumpLoop, headerdumpLine_eq, ih]
    cases w with
    | mk wh st body =>
      cases wh <;> cases rest <;>
        simp [ResponseWriter.Write, join_cons_eq, String.append_assoc]

theorem headerdumpHandlerIn_eq (order : List (String × List String)) (r : Request) :
    headerdumpHandlerIn order ResponseWriter.fresh r =
      some { wroteHeader := true, status := StatusOK,
             body := String.join (order.map headerLine) ++ hostLine r.Host } := by
  simp only [headerdumpHandlerIn, headerdumpLoop_eq, Fprintf, Sprintf_hostLine, Option.map]
  cases order <;> simp [ResponseWriter.Write, ResponseWriter.fresh, hostLine]

/-! ## The router -/

theorem setupHandlers_eq : setupHandlers NewServeMux = Except.ok router := rfl

theorem router_lookup (s : String) :
    router.m.lookup s =
      if s = "/healthz" then some { h := Handler.healthCheckHandler, pattern := "/healthz" }
      else if s = "/" then some { h := Handler.rootHandler, pattern := "/" }
      else if s = "/headers" then some { h := Handler.headerdumpHandler, pattern := "/headers" }
      else none := by
  simp only [router, List.lookup]
  by_cases h1 : s = "/healthz"
  · subst h1; rfl
  · by_cases h2 : s = "/"
    · subst h2; rfl
    · by_cases h3 : s = "/headers"
      · subst h3; rfl
      · have e1 : (s == "/healthz") = false := by simpa using h1
        have e2 : (s == "/") = false := by simpa using h2
        have e3 : (s == "/headers") = false := by simpa using h3
        simp [e1, e2, e3, h1, h2, h3]

theorem append_slash_lookup (c : String) :
    (router.m.lookup (c ++ "/")).isSome = true ↔ c = "" := by
  rw [router_lookup]
  have hlast : (c ++ "/").data.getLast? = some '/' := by
    simp [String.data_append]
  have h1 : c ++ "/" ≠ "/healthz" := by
    intro e; rw [e] at hlast; revert hlast; decide
  have h3 : c ++ "/" ≠ "/headers" := by
    intro e; rw [e] at hlast; revert hlast; decide
  simp only [h1, h3, if_false]
  constructor
  · intro h
    by_cases h2 : c ++ "/" = "/"
    · have := congrArg String.data h2
      simp only [String.data_append] at this
      apply String.ext
      have h' : c.data ++ ['/'] = [] ++ ['/'] := this
      exact List.append_cancel_right h'
    · simp [h2] at h
  · rintro rfl
    decide

theorem shouldRedirect_false (host path : String) :
    router.shouldRedirectRLocked host path = false := by
  unfold ServeMux.shouldRedirectRLocked
  simp only []
  split
  · rfl
  · split
    · rfl
    · rename_i hne
      split
      · rename_i hany
        exfalso
        simp only [List.any_cons, List.any_nil, Bool.or_false, Bool.or_eq_true,
          append_slash_lookup] at hany
        have hp : path ≠ "" := by
          intro e; apply hne; rw [e]; rfl
        rcases hany with h | h
        · exact hp h
        · apply hp
          have := congrArg String.data h
          simp only [String.data_append, List.append_eq_nil] at this
          exact String.ext this.2
      · rfl

theorem redirectToPathSlash_none (host path : String) (u : URL) :
    router.redirectToPathSlash host path u = none := by
  simp [ServeMux.redirectToPathSlash, shouldRedirect_false]

theorem handler_healthz (host : String) :
    router.handler host "/healthz" = (Handler.healthCheckHandler, "/healthz") := by
  simp [ServeMux.handler, ServeMux.matchPath, router_lookup, router]

theorem handler_catch_all (host path : String) (hroot : HasPrefix path "/" = true)
    (h1 : path ≠ "/healthz") (h2 : path ≠ "/headers") :
    router.handler host path = (Handler.rootHandler, "/") := by
  simp only [ServeMux.handler, ServeMux.matchPath, router_lookup, h1, h2, if_false]
  by_cases h : path = "/"
  · subst h
    simp [router]
  · simp [router, h, hroot]

theorem router_healthz (r : Request) :
    router.Handler { r with URL := { r.URL with Path := "/healthz" } }
      = (Handler.healthCheckHandler, "/healthz") := by
  have hc : cleanPath "/healthz" = "/healthz" := by decide
  unfold ServeMux.Handler
  by_cases hm : r.Method = "CONNECT"
  · simp only [hm, if_true, redirectToPathSlash_none]
    exact handler_healthz _
  · simp only [hm, if_false, redirectToPathSlash_none, hc, ne_eq, not_true_eq_false]
    exact handler_healthz _

/-! ## The formatter returns on every format without operands -/

theorem parsenumLoop_length (l : List Char) :
    ∀ (num : Nat) (isnum : Bool), (parsenumLoop l num isnum).2.2.length ≤ l.length := by
  induction l with
  | nil => intro num isnum; simp [parsenumLoop]
  | cons c cs ih =>
    intro num isnum
    simp only [parsenumLoop]
    split
    · split
      · simp
      · exact Nat.le_succ_of_le (ih _ _)
    · exact Nat.le_refl _

theorem parsenum_length (l rest : List Char) (n : Nat) (b : Bool)
    (h : parsenum l = (n, b, rest)) : rest.length ≤ l.length := by
  have := parsenumLoop_length l 0 false
  unfold parsenum at h
  rw [h] at this
  exact this

theorem dropWhile_length_le (f : Char → Bool) (l : List Char) :
    (l.dropWhile f).length ≤ l.length := by
  induction l with
  | nil => simp
  | cons c cs ih =>
    simp only [List.dropWhile]
    split
    · exact Nat.le_succ_of_le ih
    · exact Nat.le_refl _

theorem parseArgNumber_length (l rest : List Char) (i : Int) (ok : Bool)
    (h : parseArgNumber l = (i, rest, ok)) : rest.length ≤ l.length := by
  unfold parseArgNumber at h
  by_cases hb : byteLen l < 3
  · simp only [hb, if_true, Prod.mk.injEq] at h
    rw [← h.2.1]
    simp
  · simp only [hb, if_false] at h
    cases hdrop : (l.drop 1).dropWhile (fun c => c != ']') with
    | nil =>
      simp only [hdrop, Prod.mk.injEq] at h
      rw [← h.2.1]
      simp
    | cons c after =>
      have h1 := dropWhile_length_le (fun c => c != ']') (l.drop 1)
      rw [hdrop] at h1
      have h2 : (l.drop 1).length ≤ l.length := by simp
      have h3 : after.length ≤ l.length := by
        simp only [List.length_cons] at h1
        omega
      simp only [hdrop] at h
      rcases hp : parsenum ((l.drop 1).takeWhile (fun c => c != ']')) with ⟨w, ok', r⟩
      simp only [hp] at h
      split at h
      · simp only [Prod.mk.injEq] at h
        rw [← h.2.1]
        exact h3
      · simp only [Prod.mk.injEq] at h
        rw [← h.2.1]
        exact h3

theorem argNumber_length (p p' : PP) (argNum argNum' : Nat) (l rest : List Char)
    (numArgs : Nat) (found : Bool)
    (h : argNumber p argNum l numArgs = (p', argNum', rest, found)) :
    rest.length ≤ l.length := by
  unfold argNumber at h
  split at h
  · rename_i tail
    rcases hp : parseArgNumber ('[' :: tail) with ⟨index, r, ok⟩
    have hr := parseArgNumber_length _ _ _ _ hp
    simp only [hp] at h
    split at h
    · simp only [Prod.mk.injEq] at h
      rw [← h.2.2.1]
      exact hr
    · simp only [Prod.mk.injEq] at h
      rw [← h.2.2.1]
      exact hr
  · simp only [Prod.mk.injEq] at h
    rw [← h.2.2.1]

theorem parseFlags_length (l : List Char) :
    ∀ f : Fmt, (parseFlags l f).2.length ≤ l.length := by
  induction l with
  | nil => intro f; simp [parseFlags]
  | cons c cs ih =>
    intro f
    simp only [parseFlags]
    repeat' split
    all_goals first
      | exact Nat.le_succ_of_le (ih _)
      | exact Nat.le_refl _

theorem parseWidth_length (p p' : PP) (a : List Value) (argNum argNum' : Nat)
    (l rest : List Char) (afterIndex ai' : Bool)
    (h : parseWidth p a argNum l afterIndex = (p', argNum', rest, ai')) :
    rest.length ≤ l.length := by
  unfold parseWidth at h
  split at h
  · rcases hi : intFromArg a argNum with ⟨w, wp, n⟩
    simp only [hi, Prod.mk.injEq] at h
    rw [← h.2.2.1]
    simp
  · rcases hp : parsenum l with ⟨w, wp, r⟩
    have hr := parsenum_length _ _ _ _ hp
    simp only [hp, Prod.mk.injEq] at h
    rw [← h.2.2.1]
    exact hr

theorem parsePrecision_length (p p' : PP) (a : List Value) (argNum argNum' : Nat)
    (l rest : List Char) (afterIndex ai' : Bool)
    (h : parsePrecision p a argNum l afterIndex = (p', argNum', rest, ai')) :
    rest.length ≤ l.length := by
  unfold parsePrecision at h
  split at h
  · rename_i tail
    simp only at h
    rcases ha : argNumber (if afterIndex = true then { p with goodArgNum := false } else p)
      argNum tail a.length with ⟨p1, argNum1, rest1, ai1⟩
    have h1 := argNumber_length _ _ _ _ _ _ _ _ ha
    simp only [ha] at h
    split at h
    · rename_i rest2
      rcases hi : intFromArg a argNum1 with ⟨w, wp, n⟩
      simp only [hi, Prod.mk.injEq] at h
      rw [← h.2.2.1]
      simp only [List.length_cons] at h1 ⊢
      omega
    · rcases hp : parsenum rest1 with ⟨w, wp, r⟩
      have hr := parsenum_length _ _ _ _ hp
      simp only [hp, Prod.mk.injEq] at h
      rw [← h.2.2.1]
      simp only [List.length_cons]
      omega
  · simp only [Prod.mk.injEq] at h
    rw [← h.2.2.1]

theorem parseDirective_length (p p' : PP) (a : List Value) (argNum argNum' : Nat)
    (l rest : List Char) (h : parseDirective p a argNum l = (p', argNum', rest)) :
    rest.length ≤ l.length := by
  unfold parseDirective at h
  rcases h1 : argNumber p argNum l a.length with ⟨p1, n1, r1, ai1⟩
  have l1 := argNumber_length _ _ _ _ _ _ _ _ h1
  simp only [h1] at h
  rcases h2 : parseWidth p1 a n1 r1 ai1 with ⟨p2, n2, r2, ai2⟩
  have l2 := parseWidth_length _ _ _ _ _ _ _ _ _ h2
  simp only [h2] at h
  rcases h3 : parsePrecision p2 a n2 r2 ai2 with ⟨p3, n3, r3, ai3⟩
  have l3 := parsePrecision_length _ _ _ _ _ _ _ _ _ h3
  simp only [h3] at h
  split at h
  · rcases h4 : argNumber p3 n3 r3 a.length with ⟨p4, n4, r4, ai4⟩
    have l4 := argNumber_length _ _ _ _ _ _ _ _ h4
    simp only [h4, Prod.mk.injEq] at h
    rw [← h.2.2]
    omega
  · simp only [Prod.mk.injEq] at h
    rw [← h.2.2]
    omega

theorem fastVerb_nil (format : List Char) (argNum : Nat) : fastVerb format [] argNum = none := by
  unfold fastVerb
  split
  · split <;> simp
  · rfl

theorem printVerb_nil (p : PP) (argNum : Nat) (verb : Char) :
    ∃ r, printVerb p [] argNum verb = some r := by
  unfold printVerb
  split
  · exact ⟨_, rfl⟩
  · split
    · exact ⟨_, rfl⟩
    · simp

theorem doPrintfLoop_nil (fuel : Nat) :
    ∀ (format : List Char) (argNum : Nat) (p : PP), format.length < fuel →
      ∃ r, doPrintfLoop fuel format [] argNum p = some r := by
  induction fuel with
  | zero => intro format argNum p h; omega
  | succ fuel ih =>
    intro format argNum p hlen
    rw [doPrintfLoop]
    simp only
    cases hdrop : format.dropWhile (fun c => c != '%') with
    | nil => exact ⟨_, rfl⟩
    | cons c rest =>
      have h0 := dropWhile_length_le (fun c => c != '%') format
      rw [hdrop] at h0
      simp only [List.length_cons] at h0
      simp only [fastVerb_nil]
      generalize hd : parseDirective _ _ _ _ = d
      rcases d with ⟨p5, argNum5, rest5⟩
      have h5 := Nat.le_trans (parseDirective_length _ _ _ _ _ _ _ hd)
        (parseFlags_length rest _)
      cases rest5 with
      | nil => exact ⟨_, rfl⟩
      | cons verb rest6 =>
        obtain ⟨r, hr⟩ := printVerb_nil p5 argNum5 verb
        simp only [hr]
        apply ih
        simp only [List.length_cons] at h5
        omega

/-- Without operands the formatter returns on every format. -/
theorem doPrintf_nil_isSome (format : List Char) : ∃ out, doPrintf format [] = some out := by
  unfold doPrintf
  obtain ⟨r, hr⟩ := doPrintfLoop_nil (format.length + 1) format 0 newPrinter (Nat.lt_succ_self _)
  rw [hr]
  simp

/-- `rootHandler` returns on every request: the message is always built, and
line 30 always writes a body. -/
theorem rootHandler_returns (w : ResponseWriter) (req : Request) :
    ∃ resp out, rootResp req = some resp ∧ doPrintf resp.data [] = some out ∧
      rootHandler w req = some (w.Write (String.mk out)) := by
  have hresp : ∃ resp, rootResp req = some resp := by
    unfold rootResp
    simp only
    split
    · exact ⟨_, Sprintf_forwarded _ _⟩
    · exact ⟨_, Sprintf_direct _⟩
  obtain ⟨resp, hresp⟩ := hresp
  obtain ⟨out, hout⟩ := doPrintf_nil_isSome resp.data
  refine ⟨resp, out, hresp, hout, ?_⟩
  simp [rootHandler, hresp, Fprintf, Sprintf, hout]

/-! ## The coordinator -/

theorem Inv_init : Inv State.init := by
  simp [Inv, State.init, TaskPc.doneCount]

theorem httpBranch_fatal (err : Option GoError) (h : (httpBranch err).fatal = true) :
    ∃ e, err = some e ∧ errorsIs (some e) GoError.ErrServerClosed = false := by
  unfold httpBranch at h
  split at h
  · simp at h
  · rename_i hn
    cases err with
    | none => simp at h
    | some e => exact ⟨e, rfl, by simpa using hn⟩

theorem httpsBranch_not_fatal (err : Option GoError) : (httpsBranch err).fatal = false := by
  unfold httpsBranch
  split
  · rfl
  · cases err <;> rfl

theorem Inv_step_main (a b : String) (s s' : State) (hI : Inv s)
    (h : step a b s Event.main = some s') : Inv s' := by
  rcases s with ⟨wg, main, https, http, exited, log, hd, hd'⟩
  cases exited with
  | some c => simp [step] at h
  | none =>
    cases main <;> cases https <;> cases http <;>
      simp only [Inv, TaskPc.doneCount] at hI <;>
      simp [step] at h <;>
      (first
        | (obtain ⟨h0, h⟩ := h; subst h; subst h0; simp_all [Inv, TaskPc.doneCount])
        | (subst h; simp_all [Inv, TaskPc.doneCount]))

theorem Inv_step_returns (a b : String) (s s' : State) (l : Listener) (err : Option GoError)
    (hI : Inv s) (h : step a b s (Event.listenerReturns l err) = some s') : Inv s' := by
  rcases s with ⟨wg, main, https, http, exited, log, hd, hd'⟩
  cases exited with
  | some c => simp [step] at h
  | none =>
    cases l <;> cases main <;> cases https <;> cases http <;>
      simp only [Inv, TaskPc.doneCount] at hI <;>
      simp [step, State.pc, State.setPc] at h <;>
      (subst h; simp_all [Inv, TaskPc.doneCount])

theorem Inv_step_task (a b : String) (s s' : State) (l : Listener)
    (hI : Inv s) (h : step a b s (Event.task l) = some s') : Inv s' := by
  rcases s with ⟨wg, main, https, http, exited, log, hd, hd'⟩
  cases exited with
  | some c => simp [step] at h
  | none =>
    cases l with
    | https =>
      cases https with
      | afterServe err =>
        have hf := httpsBranch_not_fatal err
        cases main <;> cases http <;>
          simp only [Inv, TaskPc.doneCount] at hI <;>
          simp [step, State.pc, State.setPc, branch, hf] at h <;>
          (subst h; simp_all [Inv, TaskPc.doneCount])
      | atDone err =>
        cases main <;> cases http <;>
          simp only [Inv, TaskPc.doneCount] at hI <;>
          (try (obtain ⟨rfl, rfl, ⟨rfl, h5⟩, h6⟩ := hI)) <;>
          simp [step, State.pc, State.done] at h <;>
          (subst h; simp_all [Inv, TaskPc.doneCount])
      | _ =>
        cases main <;> cases http <;>
          simp only [Inv, TaskPc.doneCount] at hI <;>
          simp [step, State.pc, State.setPc] at h <;>
          (subst h; simp_all [Inv, TaskPc.doneCount])
    | http =>
      cases http with
      | afterServe err =>
        by_cases hf : (httpBranch err).fatal = true
        · obtain ⟨e, rfl, he⟩ := httpBranch_fatal err hf
          cases main <;> cases https <;>
            simp only [Inv, TaskPc.doneCount] at hI <;>
            simp [step, State.pc, State.setPc, branch, hf] at h <;>
            (subst h; simp_all [Inv, TaskPc.doneCount])
        · cases main <;> cases https <;>
            simp only [Inv, TaskPc.doneCount] at hI <;>
            simp [step, State.pc, State.setPc, branch, hf] at h <;>
            (subst h; simp_all [Inv, TaskPc.doneCount])
      | atDone err =>
        cases main <;> cases https <;>
          simp only [Inv, TaskPc.doneCount] at hI <;>
          (try (obtain ⟨rfl, rfl, ⟨rfl, h5⟩, h6⟩ := hI)) <;>
          simp [step, State.pc, State.done] at h <;>
          (subst h; simp_all [Inv, TaskPc.doneCount])
      | _ =>
        cases main <;> cases https <;>
          simp only [Inv, TaskPc.doneCount] at hI <;>
          simp [step, State.pc, State.setPc] at h <;>
          (subst h; simp_all [Inv, TaskPc.doneCount])

theorem Inv_step (a b : String) (s s' : State) (e : Event) (hI : Inv s)
    (h : step a b s e = some s') : Inv s' := by
  cases e with
  | main => exact Inv_step_main a b s s' hI h
  | task l => exact Inv_step_task a b s s' l hI h
  | listenerReturns l err => exact Inv_step_returns a b s s' l err hI h

theorem Inv_run (a b : String) (evs : List Event) :
    ∀ s s', Inv s → run a b s evs = some s' → Inv s' := by
  induction evs with
  | nil =>
    intro s s' hI h
    simp only [run, Option.some.injEq] at h
    exact h ▸ hI
  | cons e es ih =>
    intro s s' hI h
    simp only [run] at h
    cases hs : step a b s e with
    | none => simp [hs] at h
    | some s1 =>
      rw [hs] at h
      exact ih s1 s' (Inv_step a b s s1 e hI hs) h

/-! ## Decimal text of a port -/

theorem toDigitsCore_eq_digits (fuel : Nat) :
    ∀ (n : Nat) (ds : List Char), n < fuel → 0 < n →
      Nat.toDigitsCore 10 fuel n ds = ((Nat.digits 10 n).reverse.map Nat.digitChar) ++ ds := by
  induction fuel with
  | zero => intro n ds h; omega
  | succ fuel ih =>
    intro n ds hlt hpos
    have hd : Nat.digits 10 n = (n % 10) :: Nat.digits 10 (n / 10) :=
      Nat.digits_def' (by decide) hpos
    simp only [Nat.toDigitsCore]
    by_cases hz : n / 10 = 0
    · simp [hz, hd]
    · have h1 : n / 10 < fuel := by omega
      have h2 : 0 < n / 10 := Nat.pos_of_ne_zero hz
      simp only [hz, if_false]
      rw [ih (n / 10) _ h1 h2, hd]
      simp

theorem Itoa_eq_digits (n : Nat) (hpos : 0 < n) :
    Itoa (n : Int) = String.mk ((Nat.digits 10 n).reverse.map Nat.digitChar) := by
  have h0 : ¬ ((n : Int) < 0) := by omega
  simp only [Itoa, h0, if_false, Int.natAbs_ofNat, Nat.repr, Nat.toDigits, List.asString]
  rw [toDigitsCore_eq_digits (n + 1) n [] (by omega) hpos]
  simp

/-! ## The claims -/

/-- C1, counterexample: with `X-Forwarded-For: 203.0.113.7` and peer address
`10.0.0.1:1234` the body names the forwarded value first and the peer address
second, not the other way round. -/
theorem rootHandler_forwarded_order_counterexample :
    (rootHandler ResponseWriter.fresh
        (getRequest "/" [("X-Forwarded-For", ["203.0.113.7"])] "10.0.0.1:1234")).map
        ResponseWriter.body
      = some "Got / request from Connecting from 203.0.113.7, forwarded by 10.0.0.1:1234!\n" ∧
    (rootHandler ResponseWriter.fresh
        (getRequest "/" [("X-Forwarded-For", ["203.0.113.7"])] "10.0.0.1:1234")).map
        ResponseWriter.body
      ≠ some "Got / request from Connecting from 10.0.0.1:1234, forwarded by 203.0.113.7!\n" := by
  decide

/-- C1, as amended: for a request whose `X-Forwarded-For` value `F` is non-empty,
with neither `F` nor the peer address `R` containing `%`, `rootHandler` answers 200
with the body `Got / request from Connecting from F, forwarded by R!\n`: the
forwarded value fills the first slot of the template, the peer address the
second. -/
theorem rootHandler_forwarded (req : Request)
    (hF : req.Header.Get "X-Forwarded-For" ≠ "")
    (hF' : '%' ∉ (req.Header.Get "X-Forwarded-For").data)
    (hR : '%' ∉ req.RemoteAddr.data) :
    rootHandler ResponseWriter.fresh req =
      some { wroteHeader := true, status := 200,
             body := "Got / request from Connecting from " ++ req.Header.Get "X-Forwarded-For"
                      ++ ", forwarded by " ++ req.RemoteAddr ++ "!\n" } := by
  have hlen : (req.Header.Get "X-Forwarded-For").length > 0 :=
    (length_pos_iff_ne_empty _).2 hF
  have hresp : rootResp req =
      some ("Got / request from Connecting from " ++ req.Header.Get "X-Forwarded-For"
              ++ ", forwarded by " ++ req.RemoteAddr ++ "!\n") := by
    unfold rootResp
    simp only [hlen, if_true]
    exact Sprintf_forwarded _ _
  have hp : '%' ∉ ("Got / request from Connecting from " ++ req.Header.Get "X-Forwarded-For"
              ++ ", forwarded by " ++ req.RemoteAddr ++ "!\n").data := by
    simp only [String.data_append, List.mem_append, not_or]
    refine ⟨⟨⟨⟨by decide, hF'⟩, by decide⟩, hR⟩, by decide⟩
  unfold rootHandler
  rw [hresp]
  simp only
  rw [Fprintf_of_no_percent _ _ hp]
  simp [ResponseWriter.Write, ResponseWriter.fresh, StatusOK]

/-- C1, witness: the amended statement at `X-Forwarded-For: 198.51.100.23`, peer
address `192.0.2.1:4711`. -/
theorem rootHandler_forwarded_witness :
    (Header.Get [("X-Forwarded-For", ["198.51.100.23"])] "X-Forwarded-For" ≠ "" ∧
      '%' ∉ (Header.Get [("X-Forwarded-For", ["198.51.100.23"])] "X-Forwarded-For").data ∧
      '%' ∉ "192.0.2.1:4711".data) ∧
    rootHandler ResponseWriter.fresh
        (getRequest "/" [("X-Forwarded-For", ["198.51.100.23"])] "192.0.2.1:4711") =
      some { wroteHeader := true, status := 200,
             body := "Got / request from Connecting from 198.51.100.23, forwarded by 192.0.2.1:4711!\n" } :=
  ⟨by decide,
   rootHandler_forwarded
     (getRequest "/" [("X-Forwarded-For", ["198.51.100.23"])] "192.0.2.1:4711")
     (by decide) (by decide) (by decide)⟩

/-- C2, the code at the failing input: a request without `X-Forwarded-For` from
peer `192.0.2.1:4711` gets the body `Got / request from Connecting from
192.0.2.1:4711` with no terminating newline; the same holds when the header is
present with an empty value. -/
theorem rootHandler_direct_no_newline :
    (rootHandler ResponseWriter.fresh (getRequest "/" [] "192.0.2.1:4711")).map
        ResponseWriter.body
      = some "Got / request from Connecting from 192.0.2.1:4711" ∧
    (rootHandler ResponseWriter.fresh
        (getRequest "/" [("X-Forwarded-For", [""])] "192.0.2.1:4711")).map ResponseWriter.body
      = some "Got / request from Connecting from 192.0.2.1:4711" ∧
    "Got / request from Connecting from 192.0.2.1:4711"
      ≠ "Got / request from Connecting from 192.0.2.1:4711\n" := by
  decide

/-- C10, the code at the failing inputs: with `X-Forwarded-For: %s` the message
built is `… from %s, forwarded by 192.0.2.1:4711!\n` but the body written is
`… from %!s(MISSING), forwarded by 192.0.2.1:4711!\n`; with the IPv6 zone peer
address `[fe80::1%eth0]:4711` the message ends in `[fe80::1%eth0]:4711` but the
body in `[fe80::1%!e(MISSING)th0]:4711`. -/
theorem rootHandler_reinterprets_message :
    (rootResp (getRequest "/" [("X-Forwarded-For", ["%s"])] "192.0.2.1:4711")
        = some "Got / request from Connecting from %s, forwarded by 192.0.2.1:4711!\n" ∧
      (rootHandler ResponseWriter.fresh
          (getRequest "/" [("X-Forwarded-For", ["%s"])] "192.0.2.1:4711")).map
          ResponseWriter.body
        = some "Got / request from Connecting from %!s(MISSING), forwarded by 192.0.2.1:4711!\n") ∧
    (rootResp (getRequest "/" [] "[fe80::1%eth0]:4711")
        = some "Got / request from Connecting from [fe80::1%eth0]:4711" ∧
      (rootHandler ResponseWriter.fresh (getRequest "/" [] "[fe80::1%eth0]:4711")).map
          ResponseWriter.body
        = some "Got / request from Connecting from [fe80::1%!e(MISSING)th0]:4711") := by
  decide

/-- C3, counterexample: `/foo` and `/healthz/x` are none of the three registered
literals, yet the router built by `setupHandlers` dispatches both to
`rootHandler` (pattern `/`), not to the not-found handler. -/
theorem router_not_exact_counterexample :
    setupHandlers NewServeMux = Except.ok router ∧
    router.Handler (getRequest "/foo" [] "192.0.2.1:4711") = (Handler.rootHandler, "/") ∧
    router.Handler (getRequest "/healthz/x" [] "192.0.2.1:4711") = (Handler.rootHandler, "/") ∧
    (router.Handler (getRequest "/foo" [] "192.0.2.1:4711")).1 ≠ Handler.NotFoundHandler :=
  ⟨rfl, by decide, by decide, by decide⟩

/-- C3, as amended: for every request whose path begins with `/`, is in cleaned
form (`cleanPath` leaves it unchanged; not required of a `CONNECT` request, whose
path is not cleaned) and is neither `/healthz` nor `/headers`, the router built
by `setupHandlers` selects `rootHandler` under the pattern `/`: the `/`
registration is a subtree pattern and catches every such path. -/
theorem router_catch_all (r : Request)
    (hclean : r.Method ≠ "CONNECT" → cleanPath r.URL.Path = r.URL.Path)
    (hroot : HasPrefix r.URL.Path "/" = true)
    (h1 : r.URL.Path ≠ "/healthz") (h2 : r.URL.Path ≠ "/headers") :
    setupHandlers NewServeMux = Except.ok router ∧
      router.Handler r = (Handler.rootHandler, "/") := by
  refine ⟨rfl, ?_⟩
  unfold ServeMux.Handler
  by_cases hm : r.Method = "CONNECT"
  · simp only [hm, if_true, redirectToPathSlash_none]
    exact handler_catch_all _ _ hroot h1 h2
  · simp only [hm, if_false, redirectToPathSlash_none, hclean hm, ne_eq, not_true_eq_false]
    exact handler_catch_all _ _ hroot h1 h2

/-- C3, witness: the amended statement at `GET /status/live`. -/
theorem router_catch_all_witness :
    (cleanPath "/status/live" = "/status/live" ∧ HasPrefix "/status/live" "/" = true ∧
      "/status/live" ≠ "/healthz" ∧ "/status/live" ≠ "/headers") ∧
    router.Handler (getRequest "/status/live" [] "192.0.2.1:4711") = (Handler.rootHandler, "/") :=
  ⟨by decide,
   (router_catch_all (getRequest "/status/live" [] "192.0.2.1:4711")
     (fun _ => by decide) (by decide) (by decide) (by decide)).2⟩

/-- C4: for every listener and every result `err` of its listener call, the task
ends the process (exit code 1) if and only if the listener is the plain-HTTP one
and `err` is a non-nil error that is not the graceful-close error.  The HTTPS
task, on graceful close and on any other error alike, writes one log line after
its start line and reaches `wg.Done()`; the HTTP task does the same on graceful
close, and on any other error exits without reaching `wg.Done()`. -/
theorem listenerTask_fatal_iff (l : Listener) (addr : String) (err : Option GoError) :
    ((listenerTask l addr err).exited.isSome = true ↔
        l = Listener.http ∧ err ≠ none ∧ errorsIs err GoError.ErrServerClosed = false) ∧
    (∀ code, (listenerTask l addr err).exited = some code → code = 1) ∧
    (l = Listener.https → errorsIs err GoError.ErrServerClosed = true →
        (listenerTask l addr err).exited = none ∧ (listenerTask l addr err).done = true ∧
        (listenerTask l addr err).log =
          [startLog l addr, { format := "https responder closed\n", args := [] }]) ∧
    (l = Listener.https → ∀ e, err = some e → errorsIs err GoError.ErrServerClosed = false →
        (listenerTask l addr err).exited = none ∧ (listenerTask l addr err).done = true ∧
        (listenerTask l addr err).log =
          [startLog l addr,
           { format := "error listening for https: %s\n", args := [LogArg.err e] }]) ∧
    (l = Listener.http → errorsIs err GoError.ErrServerClosed = true →
        (listenerTask l addr err).exited = none ∧ (listenerTask l addr err).done = true ∧
        (listenerTask l addr err).log =
          [startLog l addr, { format := "http responder closed\n", args := [] }]) ∧
    (l = Listener.http → ∀ e, err = some e → errorsIs err GoError.ErrServerClosed = false →
        (listenerTask l addr err).exited = some 1 ∧ (listenerTask l addr err).done = false ∧
        (listenerTask l addr err).log =
          [startLog l addr,
           { format := "error listening for http: %s\n", args := [LogArg.err e] }]) := by
  cases l <;> cases err <;>
    simp [listenerTask, branch, httpsBranch, httpBranch, errorsIs] <;>
    split <;> simp_all

/-- C5: for every configuration and every behaviour of `tls.LoadX509KeyPair`,
`parseTlsConfig` returns (it never exits); it returns `nil` exactly when loading
the pair `(TlsCert, TlsKey)` fails, and otherwise a `tls.Config` whose
certificate list is exactly the loaded certificate.  In both cases
`newHttpsServer` returns a server whose address is `:` followed by the decimal
text of `HttpsListenPort` and whose TLS configuration is that result. -/
theorem parseTlsConfig_returns {Cert : Type}
    (LoadX509KeyPair : String → String → Except GoError Cert) (c : Config) :
    ∃ (log : List LogEntry) (tlsConfig : Option (TlsConfig Cert)),
      parseTlsConfig LoadX509KeyPair c = Proc.ret log tlsConfig ∧
      (tlsConfig = none ↔ ∃ err, LoadX509KeyPair c.TlsCert c.TlsKey = Except.error err) ∧
      (∀ cer, LoadX509KeyPair c.TlsCert c.TlsKey = Except.ok cer →
          tlsConfig = some { Certificates := [cer] }) ∧
      newHttpsServer LoadX509KeyPair c =
        Proc.ret log { Addr := ":" ++ Itoa c.HttpsListenPort, TLSConfig := tlsConfig,
                       Handler := none } ∧
      (∀ n : Nat, 0 < n → c.HttpsListenPort = (n : Int) →
          Itoa c.HttpsListenPort = String.mk ((Nat.digits 10 n).reverse.map Nat.digitChar)) := by
  have hdec : ∀ n : Nat, 0 < n → c.HttpsListenPort = (n : Int) →
      Itoa c.HttpsListenPort = String.mk ((Nat.digits 10 n).reverse.map Nat.digitChar) := by
    intro n hn hc
    rw [hc]
    exact Itoa_eq_digits n hn
  unfold newHttpsServer parseTlsConfig
  cases h : LoadX509KeyPair c.TlsCert c.TlsKey with
  | error err => exact ⟨_, none, rfl, by simp, by simp, rfl, hdec⟩
  | ok cer => exact ⟨_, _, rfl, by simp, by simp, rfl, hdec⟩

/-- C6: for every request, `headerdumpHandler` has a run, and every run answers
200 with a body made of exactly one line `<Name>: <Values>` per entry of the
header map, in some order, followed by the line `Host: [<host>]` and nothing
else; the names of the lines are those of the map, each once; with an empty
header map the body is exactly `Host: [<host>]\n`. -/
theorem headerdumpHandler_body (r : Request) :
    (∃ w', headerdumpHandler ResponseWriter.fresh r w') ∧
    (∀ w', headerdumpHandler ResponseWriter.fresh r w' →
        w'.status = StatusOK ∧
        ∃ order : List (String × List String),
          order.Perm r.Header ∧
          (r.Header.WellFormed → (order.map Prod.fst).Nodup) ∧
          (∀ k, k ∈ order.map Prod.fst ↔ k ∈ r.Header.map Prod.fst) ∧
          w'.body = String.join (order.map headerLine) ++ "Host: [" ++ r.Host ++ "]\n") ∧
    (r.Header = [] →
        ∀ w', headerdumpHandler ResponseWriter.fresh r w' →
          w'.body = "Host: [" ++ r.Host ++ "]\n") := by
  refine ⟨⟨_, r.Header, List.Perm.refl _, headerdumpHandlerIn_eq _ _⟩, ?_, ?_⟩
  · rintro w' ⟨order, hperm, hrun⟩
    rw [headerdumpHandlerIn_eq] at hrun
    cases hrun
    refine ⟨rfl, order, hperm, ?_, ?_, ?_⟩
    · intro hwf
      exact ((hperm.map Prod.fst).nodup_iff).2 hwf
    · intro k
      exact (hperm.map Prod.fst).mem_iff
    · simp [hostLine, String.append_assoc]
  · rintro hnil w' ⟨order, hperm, hrun⟩
    rw [hnil] at hperm
    have ho : order = [] := List.Perm.eq_nil hperm
    subst ho
    rw [headerdumpHandlerIn_eq] at hrun
    cases hrun
    apply String.ext
    simp [hostLine, String.join]

/-- C6, witness: a run on a request with the two headers `Accept` and
`User-Agent` and host `example.com`. -/
theorem headerdumpHandler_body_witness :
    ∃ w', headerdumpHandler ResponseWriter.fresh
        (getRequest "/headers" [("Accept", ["text/html", "*/*"]), ("User-Agent", ["curl/8.0"])]
          "192.0.2.1:4711") w' :=
  (headerdumpHandler_body
    (getRequest "/headers" [("Accept", ["text/html", "*/*"]), ("User-Agent", ["curl/8.0"])]
      "192.0.2.1:4711")).1

/-- C7: for every request, `healthCheckHandler` answers 200 with the body `ok\n`
(on any writer it appends exactly `ok\n`, whatever the request), and the router
built by `setupHandlers` dispatches every request for the path `/healthz`,
whatever its method and host, to `healthCheckHandler`. -/
theorem healthCheckHandler_ok :
    (∀ req : Request,
        healthCheckHandler ResponseWriter.fresh req =
          some { wroteHeader := true, status := StatusOK, body := "ok\n" }) ∧
    (∀ (w : ResponseWriter) (req : Request),
        (healthCheckHandler w req).map ResponseWriter.body = some (w.body ++ "ok\n")) ∧
    setupHandlers NewServeMux = Except.ok router ∧
    (∀ r : Request,
        router.Handler { r with URL := { r.URL with Path := "/healthz" } }
          = (Handler.healthCheckHandler, "/healthz")) :=
  ⟨fun _ => rfl, fun _ _ => rfl, rfl, router_healthz⟩

/-- C8: in every reachable state of `main` from line 88 on, under every schedule
and every result of the two listener calls: the counter was set (to two minus
the calls of `Done` so far) before either task was launched; each task has called
`Done` at most once, and exactly when it has finished, which is after its own
listener call returned; once `main` has returned from `wg.Wait()` the process
was not ended, both tasks have called `Done` exactly once and both listeners are
in a terminal state; and the process was ended only with exit code 1 by the HTTP
task after its listener returned an error other than the graceful close. -/
theorem main_join (httpsAddr httpAddr : String) (evs : List Event) (s : State)
    (h : run httpsAddr httpAddr State.init evs = some s) :
    ((s.https ≠ TaskPc.notStarted ∨ s.http ≠ TaskPc.notStarted) →
        s.main ≠ MainPc.atAdd ∧ s.wg = 2 - (s.httpsDone : Int) - (s.httpDone : Int)) ∧
    (s.httpsDone ≤ 1 ∧ (s.httpsDone = 1 ↔ ∃ err, s.https = TaskPc.finished err)) ∧
    (s.httpDone ≤ 1 ∧ (s.httpDone = 1 ↔ ∃ err, s.http = TaskPc.finished err)) ∧
    (s.main = MainPc.returned →
        s.exited = none ∧ s.wg = 0 ∧ s.httpsDone = 1 ∧ s.httpDone = 1 ∧
        s.https.terminal = true ∧ s.http.terminal = true) ∧
    (∀ code, s.exited = some code →
        code = 1 ∧ s.main ≠ MainPc.returned ∧
        ∃ e, s.http = TaskPc.afterServe (some e) ∧
          errorsIs (some e) GoError.ErrServerClosed = false) := by
  have hI := Inv_run httpsAddr httpAddr evs State.init s Inv_init h
  rcases s with ⟨wg, main, https, http, exited, log, hd, hd'⟩
  obtain ⟨h1, h2, h3, h4⟩ := hI
  simp only at h1 h2 h3 h4
  subst h1
  subst h2
  have b1 : https.doneCount ≤ 1 ∧ (https.doneCount = 1 ↔ ∃ err, https = TaskPc.finished err) := by
    cases https <;> simp [TaskPc.doneCount]
  have b2 : http.doneCount ≤ 1 ∧ (http.doneCount = 1 ↔ ∃ err, http = TaskPc.finished err) := by
    cases http <;> simp [TaskPc.doneCount]
  have t1 : https.doneCount = 1 → https.terminal = true := by
    cases https <;> simp [TaskPc.doneCount, TaskPc.terminal]
  have t2 : http.doneCount = 1 → http.terminal = true := by
    cases http <;> simp [TaskPc.doneCount, TaskPc.terminal]
  have z1 : https = TaskPc.notStarted → https.doneCount = 0 := by
    intro e; rw [e]; rfl
  have z2 : http = TaskPc.notStarted → http.doneCount = 0 := by
    intro e; rw [e]; rfl
  refine ⟨?_, b1, b2, ?_, ?_⟩
  · intro hstarted
    cases main with
    | atAdd => exact absurd hstarted (by simp [h3.2.1, h3.2.2])
    | atGoHttps => exact absurd hstarted (by simp [h3.2.1, h3.2.2])
    | atGoHttp =>
      refine ⟨by simp, ?_⟩
      simp only at h3 ⊢
      rw [h3.1, z2 h3.2.2]
      simp
    | atWait => exact ⟨by simp, h3.1⟩
    | returned =>
      refine ⟨by simp, ?_⟩
      simp only at h3 ⊢
      rw [h3.1, h3.2.1, h3.2.2.1]
      simp
  · intro hret
    simp only at hret
    subst hret
    simp only at h3
    exact ⟨h3.2.2.2, h3.1, h3.2.1, h3.2.2.1, t1 h3.2.1, t2 h3.2.2.1⟩
  · intro code hcode
    obtain ⟨hc, e, he, hne⟩ := h4 code hcode
    refine ⟨hc, ?_, e, he, hne⟩
    intro hret
    simp only at hret
    subst hret
    simp only at h3 hcode
    rw [h3.2.2.2] at hcode
    cases hcode

/-- C8, witness: the schedule in which the HTTPS listener fails to start, the
HTTP listener is closed gracefully, and `main` returns after both calls of
`Done`. -/
theorem main_join_witness :
    run ":8443" ":8080" State.init
        [Event.main, Event.main, Event.task Listener.https, Event.main,
         Event.task Listener.http,
         Event.listenerReturns Listener.https (some (GoError.other "tls: no certificate")),
         Event.task Listener.https, Event.task Listener.https,
         Event.listenerReturns Listener.http (some GoError.ErrServerClosed),
         Event.task Listener.http, Event.task Listener.http, Event.main]
      = some joinedState ∧
    (joinedState.main = MainPc.returned →
        joinedState.exited = none ∧ joinedState.wg = 0 ∧ joinedState.httpsDone = 1 ∧
        joinedState.httpDone = 1 ∧ joinedState.https.terminal = true ∧
        joinedState.http.terminal = true) :=
  ⟨by decide,
   (main_join ":8443" ":8080"
      [Event.main, Event.main, Event.task Listener.https, Event.main,
       Event.task Listener.http,
       Event.listenerReturns Listener.https (some (GoError.other "tls: no certificate")),
       Event.task Listener.https, Event.task Listener.https,
       Event.listenerReturns Listener.http (some GoError.ErrServerClosed),
       Event.task Listener.http, Event.task Listener.http, Event.main]
      joinedState (by decide)).2.2.2.1⟩

/-- C9, counterexample: on one and the same request, with the two header names
`Accept` and `User-Agent`, two runs of `headerdumpHandler` write different
bodies. -/
theorem headerdumpHandler_order_counterexample :
    Header.WellFormed [("Accept", ["*/*"]), ("User-Agent", ["curl/8.0"])] ∧
    headerdumpHandler ResponseWriter.fresh
      (getRequest "/headers" [("Accept", ["*/*"]), ("User-Agent", ["curl/8.0"])] "192.0.2.1:4711")
      { wroteHeader := true, status := 200,
        body := "Accept: [*/*]\nUser-Agent: [curl/8.0]\nHost: [example.com]\n" } ∧
    headerdumpHandler ResponseWriter.fresh
      (getRequest "/headers" [("Accept", ["*/*"]), ("User-Agent", ["curl/8.0"])] "192.0.2.1:4711")
      { wroteHeader := true, status := 200,
        body := "User-Agent: [curl/8.0]\nAccept: [*/*]\nHost: [example.com]\n" } ∧
    "Accept: [*/*]\nUser-Agent: [curl/8.0]\nHost: [example.com]\n"
      ≠ "User-Agent: [curl/8.0]\nAccept: [*/*]\nHost: [example.com]\n" :=
  ⟨by decide,
   ⟨[("Accept", ["*/*"]), ("User-Agent", ["curl/8.0"])], List.Perm.refl _, by decide⟩,
   ⟨[("User-Agent", ["curl/8.0"]), ("Accept", ["*/*"])], List.Perm.swap _ _ _, by decide⟩,
   by decide⟩

/-- C9, as amended: the order of the header lines is unspecified and may differ
from one invocation to the next.  Any two runs of `headerdumpHandler` on the
same request write the same header lines, possibly in a different order,
followed by the same `Host` line; when the request has at most one header name
the two runs write the identical response. -/
theorem headerdumpHandler_two_runs (r : Request) (w1 w2 : ResponseWriter)
    (h1 : headerdumpHandler ResponseWriter.fresh r w1)
    (h2 : headerdumpHandler ResponseWriter.fresh r w2) :
    (∃ lines1 lines2 : List String,
        lines1.Perm lines2 ∧ lines1.Perm (r.Header.map headerLine) ∧
        w1.body = String.join lines1 ++ hostLine r.Host ∧
        w2.body = String.join lines2 ++ hostLine r.Host) ∧
    (r.Header.length ≤ 1 → w1 = w2) := by
  obtain ⟨o1, hp1, hr1⟩ := h1
  obtain ⟨o2, hp2, hr2⟩ := h2
  rw [headerdumpHandlerIn_eq] at hr1 hr2
  cases hr1
  cases hr2
  refine ⟨⟨o1.map headerLine, o2.map headerLine, (hp1.trans hp2.symm).map _, hp1.map _,
    rfl, rfl⟩, ?_⟩
  intro hlen
  have e : o1 = o2 := by
    match hH : r.Header with
    | [] =>
      rw [hH] at hp1 hp2
      rw [List.Perm.eq_nil hp1, List.Perm.eq_nil hp2]
    | [a] =>
      rw [hH] at hp1 hp2
      rw [List.perm_singleton.1 hp1, List.perm_singleton.1 hp2]
    | a :: b :: rest =>
      rw [hH] at hlen
      simp at hlen
  rw [e]

/-- C9, witness: the amended statement at the two runs of the counterexample
request. -/
theorem headerdumpHandler_two_runs_witness :
    ∃ lines1 lines2 : List String,
      lines1.Perm lines2 ∧
      "Accept: [*/*]\nUser-Agent: [curl/8.0]\nHost: [example.com]\n"
        = String.join lines1 ++ hostLine "example.com" ∧
      "User-Agent: [curl/8.0]\nAccept: [*/*]\nHost: [example.com]\n"
        = String.join lines2 ++ hostLine "example.com" :=
  match (headerdumpHandler_two_runs
    (getRequest "/headers" [("Accept", ["*/*"]), ("User-Agent", ["curl/8.0"])] "192.0.2.1:4711")
    { wroteHeader := true, status := 200,
      body := "Accept: [*/*]\nUser-Agent: [curl/8.0]\nHost: [example.com]\n" }
    { wroteHeader := true, status := 200,
      body := "User-Agent: [curl/8.0]\nAccept: [*/*]\nHost: [example.com]\n" }
    ⟨[("Accept", ["*/*"]), ("User-Agent", ["curl/8.0"])], List.Perm.refl _, by decide⟩
    ⟨[("User-Agent", ["curl/8.0"]), ("Accept", ["*/*"])], List.Perm.swap _ _ _, by decide⟩).1 with
  | ⟨l1, l2, hp, _, e1, e2⟩ => ⟨l1, l2, hp, e1, e2⟩

end GoHttps
